import Mathlib

/-!
Verification of the Unscented Kalman Filter implementation (src/ukf.cpp,
class UKF) against its natural-language specification.

The state of the filter is embedded as a Lean structure whose fields mirror
the data members of the C++ class `UKF`; the member functions
`ProcessMeasurement`, `Prediction`, `UpdateLidar`, `UpdateRadar` are embedded
as pure functions from the state (and a measurement) to a new state.
Doubles are idealized as real numbers; the `while`-loop angle normalization
is embedded as a closed-form function together with lemmas proving it
satisfies exactly the loop's step and exit equations; Eigen's
`llt().matrixL()` is embedded as the Cholesky-Banachiewicz recurrence
(with `Real.sqrt` of a negative argument and division by zero both yielding
0, mirroring that the source never checks the factorization's success and
uses whatever values result).
-/

namespace UKFModel

open Matrix

/-- Size of the state vector, `n_x_ = 5` (ukf.cpp line 50). -/
def n_x_ : ℕ := 5

/-- Size of the augmented state, `n_aug_ = n_x_ + 2 = 7` (ukf.cpp line 52). -/
def n_aug_ : ℕ := n_x_ + 2

/-- Size of a radar measurement, `n_z_radar_ = 3` (ukf.cpp line 84). -/
def n_z_radar_ : ℕ := 3

/-- Sigma point spreading parameter, `lambda_ = 3 - n_aug_` (ukf.cpp line 54). -/
def lambda_ : ℝ := 3 - (n_aug_ : ℝ)

/-- Sensor tag of a measurement, mirroring `MeasurementPackage::SensorType`
with values `LASER` and `RADAR`. -/
inductive SensorType where
  | LASER : SensorType
  | RADAR : SensorType
deriving DecidableEq

/-- Mirror of `MeasurementPackage`: a sensor tag, a raw measurement vector
and an integer timestamp (microseconds).  The raw vector is embedded with
three slots (the radar size); a laser package only ever has its first two
slots read by the code. -/
structure MeasurementPackage where
  sensor_type_ : SensorType
  raw_measurements_ : Fin 3 → ℝ
  timestamp_ : ℤ

/-- Mirror of the data members of the C++ class `UKF` that persist across
calls.  The members `x_aug`, `P_aug`, `Xsig_` are always fully overwritten
before being read inside `Prediction` and are therefore embedded as local
computations rather than fields; all other members are fields. -/
structure UKF where
  std_a_ : ℝ
  std_yawdd_ : ℝ
  std_laspx_ : ℝ
  std_laspy_ : ℝ
  std_radr_ : ℝ
  std_radphi_ : ℝ
  std_radrd_ : ℝ
  is_initialized_ : Bool
  x_ : Fin 5 → ℝ
  P_ : Matrix (Fin 5) (Fin 5) ℝ
  Q_ : Matrix (Fin 2) (Fin 2) ℝ
  weights_ : Fin 15 → ℝ
  H_laser_ : Matrix (Fin 2) (Fin 5) ℝ
  R_laser_ : Matrix (Fin 2) (Fin 2) ℝ
  R_radar_ : Matrix (Fin 3) (Fin 3) ℝ
  Xsig_pred_ : Matrix (Fin 5) (Fin 15) ℝ
  Zsig_ : Matrix (Fin 3) (Fin 15) ℝ
  previous_timestamp_ : ℤ
  NIS_laser_ : ℝ
  NIS_radar_ : ℝ

/-- Weight vector built by the constructor (ukf.cpp lines 76-78): every
entry is filled with `0.5 / (n_aug_ + lambda_)` and then entry 0 is
overwritten with `lambda_ / (lambda_ + n_aug_)`. -/
noncomputable def initWeights : Fin 15 → ℝ := fun i =>
  if i = 0 then lambda_ / (lambda_ + (n_aug_ : ℝ)) else 0.5 / ((n_aug_ : ℝ) + lambda_)

/-- Initial state covariance set by the constructor (ukf.cpp lines 65-70). -/
def initP : Matrix (Fin 5) (Fin 5) ℝ :=
  !![1, 0, 0, 0, 0;
     0, 1, 0, 0, 0;
     0, 0, 1000, 0, 0;
     0, 0, 0, 100, 0;
     0, 0, 0, 0, 1]

/-- The state produced by the constructor `UKF::UKF()` (ukf.cpp lines 10-100).
The noise standard deviations are the literals of lines 16-42; `Q_` squares
the process noise standard deviations (lines 60-62); `R_radar_` squares the
radar standard deviations (lines 96-99); `R_laser_` is written from
`std_laspx_` and `std_laspy_` directly, without squaring (lines 92-94).
The members `x_`, `Xsig_pred_`, `Zsig_`, `previous_timestamp_`,
`NIS_laser_`, `NIS_radar_` are not given values by the constructor
(uninitialized in C++) and are embedded as zero. -/
noncomputable def initUKF : UKF where
  std_a_ := 0.63
  std_yawdd_ := 1.2
  std_laspx_ := 0.0225
  std_laspy_ := 0.0225
  std_radr_ := 0.9
  std_radphi_ := 0.005
  std_radrd_ := 0.5
  is_initialized_ := false
  x_ := fun _ => 0
  P_ := initP
  Q_ := !![0.63 * 0.63, 0;
           0, 1.2 * 1.2]
  weights_ := initWeights
  H_laser_ := !![1, 0, 0, 0, 0;
                 0, 1, 0, 0, 0]
  R_laser_ := !![0.0225, 0;
                 0, 0.0225]
  R_radar_ := !![0.9 * 0.9, 0, 0;
                 0, 0.005 * 0.005, 0;
                 0, 0, 0.5 * 0.5]
  Xsig_pred_ := 0
  Zsig_ := 0
  previous_timestamp_ := 0
  NIS_laser_ := 0
  NIS_radar_ := 0

/-- Embedding of the loop `while (a > M_PI) a -= 2. * M_PI;` as a closed
form: the loop subtracts `2π` exactly `max 0 ⌈(a - π)/(2π)⌉` times.  The
lemmas `normSubLoop_of_le` and `normSubLoop_step` prove that this closed
form satisfies precisely the loop's exit and step equations, which
characterize the loop's result uniquely. -/
noncomputable def normSubLoop (a : ℝ) : ℝ :=
  a - 2 * Real.pi * ((max 0 ⌈(a - Real.pi) / (2 * Real.pi)⌉ : ℤ) : ℝ)

/-- Embedding of the loop `while (a < -M_PI) a += 2. * M_PI;` as a closed
form, characterized by `normAddLoop_of_ge` and `normAddLoop_step`. -/
noncomputable def normAddLoop (a : ℝ) : ℝ :=
  a + 2 * Real.pi * ((max 0 ⌈(-Real.pi - a) / (2 * Real.pi)⌉ : ℤ) : ℝ)

/-- Embedding of the angle normalization idiom of ukf.cpp (lines 254-255,
337-338, 354-355, 360-361, 374-375): first the subtracting loop runs, then
the adding loop runs on its result. -/
noncomputable def normAngle (a : ℝ) : ℝ := normAddLoop (normSubLoop a)

/-- Bounds-checked read of a 7×7 matrix at natural-number indices (out of
range reads give 0; they never occur at the call sites below). -/
def entry7 (A : Matrix (Fin 7) (Fin 7) ℝ) (i j : ℕ) : ℝ :=
  if h : i < 7 ∧ j < 7 then A ⟨i, h.1⟩ ⟨j, h.2⟩ else 0

/-- Embedding of Eigen's `llt().matrixL()` (ukf.cpp line 188) as the
Cholesky-Banachiewicz recurrence: entry `(i, j)` is 0 above the diagonal,
`sqrt(A i i - ∑ L i k ^ 2)` on the diagonal and
`(A i j - ∑ L i k * L j k) / L j j` below it.  The source never checks
whether the factorization succeeded, so the embedding is total:
`Real.sqrt` of a negative argument yields 0 and division by zero yields 0
(the double code would produce NaN garbage there and likewise proceed). -/
noncomputable def cholEntry (A : Matrix (Fin 7) (Fin 7) ℝ) : ℕ → ℕ → ℝ
  | i, j =>
    if h1 : i < j then 0
    else if h2 : i = j then
      Real.sqrt (entry7 A i j - ∑ k : Fin j, (cholEntry A i k) ^ 2)
    else
      (entry7 A i j - ∑ k : Fin j, cholEntry A i k * cholEntry A j k) /
        cholEntry A j j
  termination_by i j => (j, i)
  decreasing_by
  · exact Prod.Lex.left _ _ k.isLt
  · exact Prod.Lex.left _ _ k.isLt
  · exact Prod.Lex.left _ _ k.isLt
  · exact Prod.Lex.right _ (by omega)

/-- The augmented covariance `P_aug` as assembled at ukf.cpp lines 184-185:
top-left 5×5 block is `P_`, bottom-right 2×2 block is `Q_`.  The two
off-diagonal 5×2 blocks of the member `P_aug` are never assigned anywhere
in the source; they are embedded as 0, the block-diagonal shape the
specification describes. -/
def augCov (P : Matrix (Fin 5) (Fin 5) ℝ) (Q : Matrix (Fin 2) (Fin 2) ℝ) :
    Matrix (Fin 7) (Fin 7) ℝ := fun i j =>
  if hi : (i : ℕ) < 5 then
    if hj : (j : ℕ) < 5 then P ⟨i, hi⟩ ⟨j, hj⟩ else 0
  else
    if (j : ℕ) < 5 then 0
    else Q ⟨(i : ℕ) - 5, by have := i.isLt; omega⟩
           ⟨(j : ℕ) - 5, by have := j.isLt; omega⟩

/-- The Cholesky factor `A = P_aug.llt().matrixL()` used in `Prediction`. -/
noncomputable def lltL (P : Matrix (Fin 5) (Fin 5) ℝ) (Q : Matrix (Fin 2) (Fin 2) ℝ) :
    Matrix (Fin 7) (Fin 7) ℝ := fun i j => cholEntry (augCov P Q) i j

/-- The augmented mean `x_aug << x_.array(), 0, 0` (ukf.cpp line 182). -/
def augMean (x : Fin 5 → ℝ) : Fin 7 → ℝ := fun i =>
  if h : (i : ℕ) < 5 then x ⟨i, h⟩ else 0

/-- The augmented sigma point matrix `Xsig_` as built at ukf.cpp lines
191-195: every column starts as `x_aug`; columns 1..7 add
`sqrt(lambda_ + n_aug_) * A` column-wise and columns 8..14 subtract it. -/
noncomputable def XsigOf (s : UKF) : Matrix (Fin 7) (Fin 15) ℝ := fun r c =>
  if (c : ℕ) = 0 then augMean s.x_ r
  else if h7 : (c : ℕ) ≤ 7 then
    augMean s.x_ r +
      Real.sqrt (lambda_ + (n_aug_ : ℝ)) * lltL s.P_ s.Q_ r ⟨(c : ℕ) - 1, by omega⟩
  else
    augMean s.x_ r -
      Real.sqrt (lambda_ + (n_aug_ : ℝ)) * lltL s.P_ s.Q_ r ⟨(c : ℕ) - 8, by
        have := c.isLt; omega⟩

/-- The CTRV sigma point propagation, body of the loop at ukf.cpp lines
199-239: reads the seven components of one augmented sigma point, applies
the curved-path formulas when `|yawd| > 0.001` and the straight-line
formulas otherwise, then adds the second-order process noise terms. -/
noncomputable def processModel (delta_t : ℝ) (pt : Fin 7 → ℝ) : Fin 5 → ℝ :=
  let p_x := pt 0
  let p_y := pt 1
  let v := pt 2
  let yaw := pt 3
  let yawd := pt 4
  let nu_a := pt 5
  let nu_yawdd := pt 6
  let px_p := if 0.001 < |yawd| then
      p_x + v / yawd * (Real.sin (yaw + yawd * delta_t) - Real.sin yaw)
    else p_x + v * delta_t * Real.cos yaw
  let py_p := if 0.001 < |yawd| then
      p_y + v / yawd * (Real.cos yaw - Real.cos (yaw + yawd * delta_t))
    else p_y + v * delta_t * Real.sin yaw
  ![px_p + 0.5 * nu_a * delta_t * delta_t * Real.cos yaw,
    py_p + 0.5 * nu_a * delta_t * delta_t * Real.sin yaw,
    v + nu_a * delta_t,
    yaw + yawd * delta_t + 0.5 * nu_yawdd * delta_t * delta_t,
    yawd + nu_yawdd * delta_t]

/-- The matrix `Xsig_pred_` written by the propagation loop. -/
noncomputable def Xsig_predOf (s : UKF) (delta_t : ℝ) : Matrix (Fin 5) (Fin 15) ℝ :=
  fun r c => processModel delta_t (fun i => XsigOf s i c) r

/-- Predicted state mean, ukf.cpp lines 242-245. -/
noncomputable def predMean (s : UKF) (delta_t : ℝ) : Fin 5 → ℝ :=
  fun r => ∑ c : Fin 15, s.weights_ c * Xsig_predOf s delta_t r c

/-- One state residual of the predicted-covariance loop (ukf.cpp lines
252-255): the yaw component (index 3) is angle-normalized, the rest are
plain differences. -/
noncomputable def predXdiff (s : UKF) (delta_t : ℝ) (c : Fin 15) : Fin 5 → ℝ :=
  fun r =>
    if r = 3 then normAngle (Xsig_predOf s delta_t r c - predMean s delta_t r)
    else Xsig_predOf s delta_t r c - predMean s delta_t r

/-- Predicted state covariance, ukf.cpp lines 248-258. -/
noncomputable def predCov (s : UKF) (delta_t : ℝ) : Matrix (Fin 5) (Fin 5) ℝ :=
  fun i j => ∑ c : Fin 15, s.weights_ c * (predXdiff s delta_t c i * predXdiff s delta_t c j)

/-- Embedding of `UKF::Prediction` (ukf.cpp lines 179-259). -/
noncomputable def UKF.Prediction (s : UKF) (delta_t : ℝ) : UKF :=
  { s with
    Xsig_pred_ := Xsig_predOf s delta_t,
    x_ := predMean s delta_t,
    P_ := predCov s delta_t }

/-- The error kind the specification requires sigma-point generation to
signal on a non-positive-definite augmented covariance. -/
inductive NumericalError where
  | notPositiveDefinite : NumericalError
deriving DecidableEq

/-- Checked form of `UKF::Prediction`.  The source computes
`P_aug.llt().matrixL()` (ukf.cpp line 188) without consulting the
factorization's success indicator, throws nothing, and returns normally on
every input, so the `Except`-valued embedding returns `Except.ok`
unconditionally. -/
noncomputable def UKF.PredictionE (s : UKF) (delta_t : ℝ) : Except NumericalError UKF :=
  Except.ok (s.Prediction delta_t)

/-- The lidar measurement vector: the first two slots of
`raw_measurements_`. -/
def lidarZ (m : MeasurementPackage) : Fin 2 → ℝ :=
  fun i => m.raw_measurements_ ⟨(i : ℕ), by have := i.isLt; omega⟩

/-- The lidar innovation covariance `S = H_laser_ * P_ * Ht + R_laser_`
(ukf.cpp line 271). -/
noncomputable def lidarS (s : UKF) : Matrix (Fin 2) (Fin 2) ℝ :=
  s.H_laser_ * s.P_ * s.H_laser_.transpose + s.R_laser_

/-- The lidar innovation `z - H_laser_ * x_` (ukf.cpp lines 268-269). -/
noncomputable def lidarZdiff (s : UKF) (m : MeasurementPackage) : Fin 2 → ℝ :=
  lidarZ m - s.H_laser_ *ᵥ s.x_

/-- Embedding of `UKF::UpdateLidar` (ukf.cpp lines 265-283). -/
noncomputable def UKF.UpdateLidar (s : UKF) (m : MeasurementPackage) : UKF :=
  let z_diff := lidarZdiff s m
  let Si := (lidarS s)⁻¹
  let K := s.P_ * s.H_laser_.transpose * Si
  { s with
    x_ := s.x_ + K *ᵥ z_diff,
    P_ := (1 - K * s.H_laser_) * s.P_,
    NIS_laser_ := z_diff ⬝ᵥ (Si *ᵥ z_diff) }

/-- Model of the C library function `std::atan2 y x`, including
`atan2 0 0 = 0`. -/
noncomputable def atan2 (y x : ℝ) : ℝ :=
  if 0 < x then Real.arctan (y / x)
  else if x < 0 then
    (if 0 ≤ y then Real.arctan (y / x) + Real.pi else Real.arctan (y / x) - Real.pi)
  else
    (if 0 < y then Real.pi / 2 else if y < 0 then -(Real.pi / 2) else 0)

/-- The raw radar range-rate of one predicted sigma point (ukf.cpp line
305), modelling its possible IEEE NaN as `none`.  In doubles,
`rho_dot = (p_x*v_y + p_y*v_x)/rho` is NaN exactly when `rho = 0`: then
`p_x = p_y = 0`, the numerator is 0, and the quotient is 0/0.  The range
(a square root of a sum of squares) and the bearing (atan2) are never NaN
for real operands, so their NaN tests at ukf.cpp lines 307-312 never fire
and the `rho_dot != rho_dot` test fires exactly when `rho = 0`. -/
noncomputable def radarRhoDot (s : UKF) (c : Fin 15) : Option ℝ :=
  let p_x := s.Xsig_pred_ 0 c
  let p_y := s.Xsig_pred_ 1 c
  let v := s.Xsig_pred_ 2 c
  let yaw := s.Xsig_pred_ 3 c
  let v_y := Real.cos yaw * v
  let v_x := Real.sin yaw * v
  let rho := Real.sqrt (p_x * p_x + p_y * p_y)
  if rho = 0 then none else some ((p_x * v_y + p_y * v_x) / rho)

/-- The measurement-space sigma points `Zsig_` (ukf.cpp lines 291-320),
after the NaN-to-zero guard: range, bearing, and guarded range-rate. -/
noncomputable def radarZsig (s : UKF) : Matrix (Fin 3) (Fin 15) ℝ := fun r c =>
  let p_x := s.Xsig_pred_ 0 c
  let p_y := s.Xsig_pred_ 1 c
  if r = 0 then Real.sqrt (p_x * p_x + p_y * p_y)
  else if r = 1 then atan2 p_y p_x
  else (radarRhoDot s c).getD 0

/-- Mean predicted radar measurement (ukf.cpp lines 323-327). -/
noncomputable def radarZpred (s : UKF) : Fin 3 → ℝ :=
  fun r => ∑ c : Fin 15, s.weights_ c * radarZsig s r c

/-- One measurement residual of the radar covariance loops (ukf.cpp lines
334-338 and 352-355): the bearing component (index 1) is
angle-normalized. -/
noncomputable def radarZdiff (s : UKF) (c : Fin 15) : Fin 3 → ℝ :=
  fun r =>
    if r = 1 then normAngle (radarZsig s r c - radarZpred s r)
    else radarZsig s r c - radarZpred s r

/-- The radar innovation covariance `S` (ukf.cpp lines 330-344), including
the added measurement noise `R_radar_`. -/
noncomputable def radarS (s : UKF) : Matrix (Fin 3) (Fin 3) ℝ :=
  (Matrix.of fun i j => ∑ c : Fin 15, s.weights_ c * (radarZdiff s c i * radarZdiff s c j)) +
    s.R_radar_

/-- One state residual of the cross-correlation loop (ukf.cpp lines
358-361): the yaw component (index 3) is angle-normalized. -/
noncomputable def radarXdiff (s : UKF) (c : Fin 15) : Fin 5 → ℝ :=
  fun r =>
    if r = 3 then normAngle (s.Xsig_pred_ r c - s.x_ r)
    else s.Xsig_pred_ r c - s.x_ r

/-- The cross-correlation matrix `Tc` (ukf.cpp lines 347-364). -/
noncomputable def radarTc (s : UKF) : Matrix (Fin 5) (Fin 3) ℝ :=
  fun i j => ∑ c : Fin 15, s.weights_ c * (radarXdiff s c i * radarZdiff s c j)

/-- The final radar innovation (ukf.cpp lines 370-375): measurement minus
predicted measurement, bearing component angle-normalized. -/
noncomputable def radarZfinal (s : UKF) (m : MeasurementPackage) : Fin 3 → ℝ :=
  fun r =>
    if r = 1 then normAngle (m.raw_measurements_ r - radarZpred s r)
    else m.raw_measurements_ r - radarZpred s r

/-- Embedding of `UKF::UpdateRadar` (ukf.cpp lines 289-382). -/
noncomputable def UKF.UpdateRadar (s : UKF) (m : MeasurementPackage) : UKF :=
  let K := radarTc s * (radarS s)⁻¹
  let z_diff := radarZfinal s m
  { s with
    Zsig_ := radarZsig s,
    x_ := s.x_ + K *ᵥ z_diff,
    P_ := s.P_ - K * radarS s * K.transpose,
    NIS_radar_ := z_diff ⬝ᵥ ((radarS s)⁻¹ *ᵥ z_diff) }

/-- Overwrite one entry of a 5×5 matrix, modelling `P_(i,j) = v`. -/
def setEntry (P : Matrix (Fin 5) (Fin 5) ℝ) (i j : Fin 5) (v : ℝ) :
    Matrix (Fin 5) (Fin 5) ℝ :=
  fun a b => if a = i ∧ b = j then v else P a b

/-- Embedding of `UKF::ProcessMeasurement` (ukf.cpp lines 108-172).  On the
first call it initializes the position from the measurement (with the
near-zero guard in the RADAR branch only, lines 129-136), stores the
timestamp and sets the initialized flag; on later calls it computes
`dt = (timestamp - previous_timestamp_) / 1000000`, stores the timestamp,
runs `Prediction(dt)` and dispatches to the update matching the sensor
tag. -/
noncomputable def UKF.ProcessMeasurement (s : UKF) (m : MeasurementPackage) : UKF :=
  if s.is_initialized_ = false then
    match m.sensor_type_ with
    | SensorType.RADAR =>
      let rho := m.raw_measurements_ 0
      let phi := m.raw_measurements_ 1
      let px0 := rho * Real.cos phi
      let py0 := rho * Real.sin phi
      let px := if |px0| < 0.0001 then 1 else px0
      let P1 := if |px0| < 0.0001 then setEntry s.P_ 0 0 1000 else s.P_
      let py := if |py0| < 0.0001 then 1 else py0
      let P2 := if |py0| < 0.0001 then setEntry P1 1 1 1000 else P1
      { s with
        x_ := ![px, py, 0, 0, 0],
        P_ := P2,
        previous_timestamp_ := m.timestamp_,
        is_initialized_ := true }
    | SensorType.LASER =>
      { s with
        x_ := ![m.raw_measurements_ 0, m.raw_measurements_ 1, 0, 0, 0],
        previous_timestamp_ := m.timestamp_,
        is_initialized_ := true }
  else
    let dt : ℝ := ((m.timestamp_ - s.previous_timestamp_ : ℤ) : ℝ) / 1000000
    let s2 := UKF.Prediction { s with previous_timestamp_ := m.timestamp_ } dt
    match m.sensor_type_ with
    | SensorType.RADAR => s2.UpdateRadar m
    | SensorType.LASER => s2.UpdateLidar m

/-- Written from the specification's and claim C8's wording: the pre-noise
CTRV propagation of one sigma point — closed-form curved-path position
formulas exactly when the heading-rate magnitude exceeds 0.001, otherwise
straight-line formulas; speed carried forward unchanged; heading becomes
`yaw + yawd * delta_t`; heading-rate carried forward unchanged. -/
noncomputable def specCTRV (delta_t : ℝ) (pt : Fin 7 → ℝ) : Fin 5 → ℝ :=
  let p_x := pt 0
  let p_y := pt 1
  let v := pt 2
  let yaw := pt 3
  let yawd := pt 4
  ![if 0.001 < |yawd| then
      p_x + v / yawd * (Real.sin (yaw + yawd * delta_t) - Real.sin yaw)
    else p_x + v * delta_t * Real.cos yaw,
    if 0.001 < |yawd| then
      p_y + v / yawd * (Real.cos yaw - Real.cos (yaw + yawd * delta_t))
    else p_y + v * delta_t * Real.sin yaw,
    v,
    yaw + yawd * delta_t,
    yawd]

/-- Written from the specification's wording: the second-order process
noise injected into one propagated sigma point. -/
noncomputable def specProcessNoise (delta_t : ℝ) (pt : Fin 7 → ℝ) : Fin 5 → ℝ :=
  let yaw := pt 3
  let nu_a := pt 5
  let nu_yawdd := pt 6
  ![0.5 * nu_a * delta_t * delta_t * Real.cos yaw,
    0.5 * nu_a * delta_t * delta_t * Real.sin yaw,
    nu_a * delta_t,
    0.5 * nu_yawdd * delta_t * delta_t,
    nu_yawdd * delta_t]

/-- Concrete state for claim C4: the constructor state with zero mean and
the positive definite diagonal covariance `diag(1, 1, 1, 100, 1)` (yaw
variance 100). -/
noncomputable def sC4 : UKF :=
  { initUKF with x_ := fun _ => 0, P_ := Matrix.diagonal ![1, 1, 1, 100, 1] }

/-- Concrete state for claim C2: the constructor state with the
non-positive-definite covariance `diag(-1, 1, 1, 1, 1)`. -/
noncomputable def sC2 : UKF :=
  { initUKF with P_ := Matrix.diagonal ![-1, 1, 1, 1, 1] }

/-- Concrete initialized state for claim C9's witness. -/
noncomputable def sC9 : UKF :=
  { initUKF with is_initialized_ := true, previous_timestamp_ := 5 }

theorem normSubLoop_of_le {a : ℝ} (h : a ≤ Real.pi) : normSubLoop a = a := by
  have hc : ⌈(a - Real.pi) / (2 * Real.pi)⌉ ≤ 0 := by
    rw [Int.ceil_le]
    push_cast
    apply div_nonpos_of_nonpos_of_nonneg (by linarith)
    positivity
  rw [normSubLoop, max_eq_left hc]
  simp

theorem normSubLoop_step {a : ℝ} (h : Real.pi < a) :
    normSubLoop a = normSubLoop (a - 2 * Real.pi) := by
  have hpi : (0:ℝ) < 2 * Real.pi := by positivity
  have hc1 : 0 < ⌈(a - Real.pi) / (2 * Real.pi)⌉ := by
    rw [Int.ceil_pos]
    apply div_pos (by linarith) hpi
  have hshift : (a - 2 * Real.pi - Real.pi) / (2 * Real.pi)
      = (a - Real.pi) / (2 * Real.pi) - 1 := by
    field_simp
    ring
  rw [normSubLoop, normSubLoop, hshift]
  rw [show ((a - Real.pi) / (2 * Real.pi) - 1) = ((a - Real.pi) / (2 * Real.pi) - (1:ℤ)) by
    norm_num]
  rw [Int.ceil_sub_int]
  rw [max_eq_right (by omega), max_eq_right (by omega)]
  push_cast
  ring

theorem normAddLoop_of_ge {a : ℝ} (h : -Real.pi ≤ a) : normAddLoop a = a := by
  have hc : ⌈(-Real.pi - a) / (2 * Real.pi)⌉ ≤ 0 := by
    rw [Int.ceil_le]
    push_cast
    apply div_nonpos_of_nonpos_of_nonneg (by linarith)
    positivity
  rw [normAddLoop, max_eq_left hc]
  simp

theorem normAddLoop_step {a : ℝ} (h : a < -Real.pi) :
    normAddLoop a = normAddLoop (a + 2 * Real.pi) := by
  have hpi : (0:ℝ) < 2 * Real.pi := by positivity
  have hc1 : 0 < ⌈(-Real.pi - a) / (2 * Real.pi)⌉ := by
    rw [Int.ceil_pos]
    apply div_pos (by linarith) hpi
  have hshift : (-Real.pi - (a + 2 * Real.pi)) / (2 * Real.pi)
      = (-Real.pi - a) / (2 * Real.pi) - 1 := by
    field_simp
    ring
  rw [normAddLoop, normAddLoop, hshift]
  rw [show ((-Real.pi - a) / (2 * Real.pi) - 1) = ((-Real.pi - a) / (2 * Real.pi) - (1:ℤ)) by
    norm_num]
  rw [Int.ceil_sub_int]
  rw [max_eq_right (by omega), max_eq_right (by omega)]
  push_cast
  ring

theorem normSubLoop_le {a : ℝ} : normSubLoop a ≤ Real.pi := by
  rcases le_or_lt a Real.pi with h | h
  · rw [normSubLoop_of_le h]; exact h
  · have hpi : (0:ℝ) < 2 * Real.pi := by positivity
    have hcle : (a - Real.pi) / (2 * Real.pi) ≤ (⌈(a - Real.pi) / (2 * Real.pi)⌉ : ℝ) :=
      Int.le_ceil _
    have hc1 : 0 < ⌈(a - Real.pi) / (2 * Real.pi)⌉ := by
      rw [Int.ceil_pos]; exact div_pos (by linarith) hpi
    rw [normSubLoop, max_eq_right (by omega)]
    have h2 : a - Real.pi ≤ 2 * Real.pi * (⌈(a - Real.pi) / (2 * Real.pi)⌉ : ℝ) := by
      rw [← div_le_iff₀' hpi]; exact hcle
    linarith

theorem normSubLoop_gt {a : ℝ} (h : Real.pi < a) : -Real.pi < normSubLoop a := by
  have hpi : (0:ℝ) < 2 * Real.pi := by positivity
  have hlt : (⌈(a - Real.pi) / (2 * Real.pi)⌉ : ℝ) < (a - Real.pi) / (2 * Real.pi) + 1 :=
    Int.ceil_lt_add_one _
  have hc1 : 0 < ⌈(a - Real.pi) / (2 * Real.pi)⌉ := by
    rw [Int.ceil_pos]; exact div_pos (by linarith) hpi
  rw [normSubLoop, max_eq_right (by omega)]
  have h2 : 2 * Real.pi * (⌈(a - Real.pi) / (2 * Real.pi)⌉ : ℝ)
      < 2 * Real.pi * ((a - Real.pi) / (2 * Real.pi) + 1) := by
    exact mul_lt_mul_of_pos_left hlt hpi
  have h3 : 2 * Real.pi * ((a - Real.pi) / (2 * Real.pi) + 1) = a + Real.pi := by
    field_simp
    ring
  linarith

theorem normAddLoop_ge {a : ℝ} : -Real.pi ≤ normAddLoop a := by
  rcases le_or_lt (-Real.pi) a with h | h
  · rw [normAddLoop_of_ge h]; exact h
  · have hpi : (0:ℝ) < 2 * Real.pi := by positivity
    have hcle : (-Real.pi - a) / (2 * Real.pi) ≤ (⌈(-Real.pi - a) / (2 * Real.pi)⌉ : ℝ) :=
      Int.le_ceil _
    have hc1 : 0 < ⌈(-Real.pi - a) / (2 * Real.pi)⌉ := by
      rw [Int.ceil_pos]; exact div_pos (by linarith) hpi
    rw [normAddLoop, max_eq_right (by omega)]
    have h2 : -Real.pi - a ≤ 2 * Real.pi * (⌈(-Real.pi - a) / (2 * Real.pi)⌉ : ℝ) := by
      rw [← div_le_iff₀' hpi]; exact hcle
    linarith

theorem normAddLoop_lt {a : ℝ} (h : a < -Real.pi) : normAddLoop a < Real.pi := by
  have hpi : (0:ℝ) < 2 * Real.pi := by positivity
  have hlt : (⌈(-Real.pi - a) / (2 * Real.pi)⌉ : ℝ) < (-Real.pi - a) / (2 * Real.pi) + 1 :=
    Int.ceil_lt_add_one _
  have hc1 : 0 < ⌈(-Real.pi - a) / (2 * Real.pi)⌉ := by
    rw [Int.ceil_pos]; exact div_pos (by linarith) hpi
  rw [normAddLoop, max_eq_right (by omega)]
  have h2 : 2 * Real.pi * (⌈(-Real.pi - a) / (2 * Real.pi)⌉ : ℝ)
      < 2 * Real.pi * ((-Real.pi - a) / (2 * Real.pi) + 1) := by
    exact mul_lt_mul_of_pos_left hlt hpi
  have h3 : 2 * Real.pi * ((-Real.pi - a) / (2 * Real.pi) + 1) = Real.pi - a := by
    field_simp
    ring
  linarith

/-- The combined normalization always lands in the closed interval
`[-π, π]`. -/
theorem normAngle_mem (a : ℝ) : -Real.pi ≤ normAngle a ∧ normAngle a ≤ Real.pi := by
  rw [normAngle]
  rcases le_or_lt (-Real.pi) (normSubLoop a) with h | h
  · rw [normAddLoop_of_ge h]
    exact ⟨h, normSubLoop_le⟩
  · exact ⟨normAddLoop_ge, le_of_lt (normAddLoop_lt h)⟩

/-- Inputs already inside `[-π, π]` pass through the normalization
unchanged. -/
theorem normAngle_of_mem {a : ℝ} (h1 : -Real.pi ≤ a) (h2 : a ≤ Real.pi) :
    normAngle a = a := by
  rw [normAngle, normSubLoop_of_le h2, normAddLoop_of_ge h1]

theorem normAngle_zero : normAngle 0 = 0 :=
  normAngle_of_mem (by linarith [Real.pi_pos]) (le_of_lt Real.pi_pos)

end UKFModel

open UKFModel Matrix

/-- C6: the weight vector has 15 entries, entry 0 equals
`lambda_ / (lambda_ + n_aug_)` and every other entry equals
`0.5 / (n_aug_ + lambda_)`, numerically entry 0 is `-4/3` and entries 1..14
are `1/6`, and the 15 weights sum to exactly 1. -/
theorem C6_weights :
    initUKF.weights_ 0 = lambda_ / (lambda_ + (n_aug_ : ℝ)) ∧
    initUKF.weights_ = ![-4/3, 1/6, 1/6, 1/6, 1/6, 1/6, 1/6, 1/6,
                         1/6, 1/6, 1/6, 1/6, 1/6, 1/6, 1/6] ∧
    (∑ i : Fin 15, initUKF.weights_ i) = 1 := by
  have hw : initUKF.weights_ = ![-4/3, 1/6, 1/6, 1/6, 1/6, 1/6, 1/6, 1/6,
      1/6, 1/6, 1/6, 1/6, 1/6, 1/6, 1/6] := by
    funext i
    fin_cases i <;>
      norm_num [initUKF, initWeights, lambda_, n_aug_, n_x_, Fin.ext_iff]
  refine ⟨by norm_num [initUKF, initWeights], hw, ?_⟩
  rw [hw]
  simp [Fin.sum_univ_succ]
  norm_num

/-- C1: in the lidar update the innovation covariance is structurally
`H_laser_ * P_ * H_laser_ᵀ + R_laser_`, but the matrix `R_laser_` built by
the constructor holds the configured lidar noise standard deviations
`std_laspx_ = std_laspy_ = 0.0225` themselves, not their squares: the
claimed identity `R_laser_ = diag(std_laspx_², std_laspy_²)` fails on the
diagonal. -/
theorem C1_lidar_innovation_covariance :
    (∀ s : UKF, lidarS s = s.H_laser_ * s.P_ * s.H_laser_.transpose + s.R_laser_) ∧
    initUKF.std_laspx_ = 0.0225 ∧
    initUKF.std_laspy_ = 0.0225 ∧
    initUKF.R_laser_ 0 0 = initUKF.std_laspx_ ∧
    initUKF.R_laser_ 1 1 = initUKF.std_laspy_ ∧
    initUKF.R_laser_ 0 1 = 0 ∧
    initUKF.R_laser_ 1 0 = 0 ∧
    initUKF.R_laser_ 0 0 ≠ initUKF.std_laspx_ ^ 2 ∧
    initUKF.R_laser_ 1 1 ≠ initUKF.std_laspy_ ^ 2 := by
  refine ⟨fun s => rfl, rfl, rfl, ?_, ?_, ?_, ?_, ?_, ?_⟩ <;>
    norm_num [initUKF]

/-- C8: for every sigma point and every elapsed time, the propagated sigma
point is exactly the specification's pre-noise CTRV formulas (curved-path
position exactly when the heading-rate magnitude exceeds 0.001, else
straight-line; speed carried forward; heading advanced by
heading-rate times elapsed time) plus the second-order noise terms. -/
theorem C8_process_model (delta_t : ℝ) (pt : Fin 7 → ℝ) :
    processModel delta_t pt =
      fun r => specCTRV delta_t pt r + specProcessNoise delta_t pt r := by
  funext r
  fin_cases r <;>
    simp [processModel, specCTRV, specProcessNoise]

/-- C10: the lidar update writes the lidar NIS and leaves the radar NIS
unchanged, the radar update writes the radar NIS and leaves the lidar NIS
unchanged, and neither update modifies the stored previous timestamp, any
of the seven configured noise standard deviations, the weight vector or the
process noise matrix `Q_`. -/
theorem C10_update_frame (s : UKF) (m : MeasurementPackage) :
    (s.UpdateLidar m).NIS_radar_ = s.NIS_radar_ ∧
    (s.UpdateLidar m).NIS_laser_ =
      lidarZdiff s m ⬝ᵥ ((lidarS s)⁻¹ *ᵥ lidarZdiff s m) ∧
    (s.UpdateRadar m).NIS_laser_ = s.NIS_laser_ ∧
    (s.UpdateRadar m).NIS_radar_ =
      radarZfinal s m ⬝ᵥ ((radarS s)⁻¹ *ᵥ radarZfinal s m) ∧
    (s.UpdateLidar m).previous_timestamp_ = s.previous_timestamp_ ∧
    (s.UpdateRadar m).previous_timestamp_ = s.previous_timestamp_ ∧
    (s.UpdateLidar m).std_a_ = s.std_a_ ∧
    (s.UpdateRadar m).std_a_ = s.std_a_ ∧
    (s.UpdateLidar m).std_yawdd_ = s.std_yawdd_ ∧
    (s.UpdateRadar m).std_yawdd_ = s.std_yawdd_ ∧
    (s.UpdateLidar m).std_laspx_ = s.std_laspx_ ∧
    (s.UpdateRadar m).std_laspx_ = s.std_laspx_ ∧
    (s.UpdateLidar m).std_laspy_ = s.std_laspy_ ∧
    (s.UpdateRadar m).std_laspy_ = s.std_laspy_ ∧
    (s.UpdateLidar m).std_radr_ = s.std_radr_ ∧
    (s.UpdateRadar m).std_radr_ = s.std_radr_ ∧
    (s.UpdateLidar m).std_radphi_ = s.std_radphi_ ∧
    (s.UpdateRadar m).std_radphi_ = s.std_radphi_ ∧
    (s.UpdateLidar m).std_radrd_ = s.std_radrd_ ∧
    (s.UpdateRadar m).std_radrd_ = s.std_radrd_ ∧
    (s.UpdateLidar m).weights_ = s.weights_ ∧
    (s.UpdateRadar m).weights_ = s.weights_ ∧
    (s.UpdateLidar m).Q_ = s.Q_ ∧
    (s.UpdateRadar m).Q_ = s.Q_ :=
  ⟨rfl, rfl, rfl, rfl, rfl, rfl, rfl, rfl, rfl, rfl, rfl, rfl,
   rfl, rfl, rfl, rfl, rfl, rfl, rfl, rfl, rfl, rfl, rfl, rfl⟩

/-- C7: in the radar measurement transform a range-rate that would be NaN
(modelled as `none`) is replaced by 0 in the measurement-space sigma point
matrix, and a predicted sigma point with zero position maps to the
measurement vector `(0, 0, 0)`; every entry of the matrix that feeds the
predicted measurement mean and the innovation covariance is therefore a
well-defined real number. -/
theorem C7_radar_nan_guard (s : UKF) (c : Fin 15) :
    (radarRhoDot s c = none → radarZsig s 2 c = 0) ∧
    (s.Xsig_pred_ 0 c = 0 → s.Xsig_pred_ 1 c = 0 →
      radarZsig s 0 c = 0 ∧ radarZsig s 1 c = 0 ∧ radarZsig s 2 c = 0) := by
  constructor
  · intro h
    simp [radarZsig, h]
  · intro h0 h1
    refine ⟨?_, ?_, ?_⟩
    · simp [radarZsig, h0, h1]
    · simp [radarZsig, atan2, h0, h1]
    · simp [radarZsig, radarRhoDot, h0, h1]

/-- Witness for C7 at the constructor state, whose predicted sigma points
are the zero matrix: column 0 has zero position and maps to `(0, 0, 0)`,
the NaN case (`none`) being replaced by 0. -/
theorem C7_radar_nan_guard_witness :
    radarRhoDot initUKF 0 = none ∧
    radarZsig initUKF 2 0 = 0 ∧
    radarZsig initUKF 0 0 = 0 ∧
    radarZsig initUKF 1 0 = 0 := by
  have h := C7_radar_nan_guard initUKF 0
  have hrd : radarRhoDot initUKF 0 = none := by
    simp [radarRhoDot, initUKF]
  exact ⟨hrd, h.1 hrd, (h.2 rfl rfl).1, (h.2 rfl rfl).2.1⟩

/-- C5 counterexample: the normalization used at every accumulation site
maps the residual `-π` to itself, which is not strictly greater than `-π`,
so the normalized residual does not lie in the half-open interval
`(-π, π]`. -/
theorem C5_counterexample :
    normAngle (-Real.pi) = -Real.pi ∧ ¬ (-Real.pi < normAngle (-Real.pi)) := by
  have h : normAngle (-Real.pi) = -Real.pi :=
    normAngle_of_mem le_rfl (by linarith [Real.pi_pos])
  exact ⟨h, by rw [h]; exact lt_irrefl _⟩

/-- C5 (amended): the angle normalization applied at every accumulation
site maps every input residual into the closed interval `[-π, π]`. -/
theorem C5_angle_normalization_range (a : ℝ) :
    -Real.pi ≤ normAngle a ∧ normAngle a ≤ Real.pi :=
  normAngle_mem a

/-- The augmented covariance of the C2 test state is the diagonal matrix
with a negative leading entry. -/
lemma augCov_sC2 :
    augCov sC2.P_ sC2.Q_ =
      Matrix.diagonal ![-1, 1, 1, 1, 1, 0.63 * 0.63, 1.2 * 1.2] := by
  funext i j
  fin_cases i <;> fin_cases j <;> rfl

/-- The augmented covariance of the C2 test state is not positive
definite. -/
lemma notPosDef_sC2 : ¬ (augCov sC2.P_ sC2.Q_).PosDef := by
  rw [augCov_sC2, Matrix.posDef_diagonal_iff]
  intro h
  have h0 := h 0
  norm_num at h0

/-- C2 counterexample: for the concrete state whose augmented covariance is
not positive definite, sigma-point generation does not fail: the checked
prediction still returns `Except.ok` (the source never inspects the
factorization and has no error path). -/
theorem C2_counterexample :
    ¬ (augCov sC2.P_ sC2.Q_).PosDef ∧
    sC2.PredictionE 0 = Except.ok (sC2.Prediction 0) :=
  ⟨notPosDef_sC2, rfl⟩

/-- C2 (amended): for every state whose augmented covariance is not
positive definite, the prediction signals no error at all: it returns
`Except.ok` of the state computed with the unchecked Cholesky factor. -/
theorem C2_no_numerical_error (s : UKF) (delta_t : ℝ)
    (_h : ¬ (augCov s.P_ s.Q_).PosDef) :
    s.PredictionE delta_t = Except.ok (s.Prediction delta_t) := rfl

/-- Witness for C2 (amended) at the concrete non-positive-definite state. -/
theorem C2_no_numerical_error_witness :
    (¬ (augCov sC2.P_ sC2.Q_).PosDef) ∧
    sC2.PredictionE 1 = Except.ok (sC2.Prediction 1) :=
  ⟨notPosDef_sC2, C2_no_numerical_error sC2 1 notPosDef_sC2⟩

/-- C3 counterexample: a first LASER measurement with position (0, 0) is
stored as-is: the position component stays 0 (not replaced by 1) and the
covariance diagonal entry stays at its constructor value 1 (not inflated to
1000), although the component's magnitude is below 1e-4. -/
theorem C3_counterexample :
    |(0:ℝ)| < 0.0001 ∧
    (initUKF.ProcessMeasurement ⟨SensorType.LASER, ![0, 0, 0], 0⟩).x_ 0 = 0 ∧
    (initUKF.ProcessMeasurement ⟨SensorType.LASER, ![0, 0, 0], 0⟩).x_ 0 ≠ 1 ∧
    (initUKF.ProcessMeasurement ⟨SensorType.LASER, ![0, 0, 0], 0⟩).P_ 0 0 = 1 ∧
    (initUKF.ProcessMeasurement ⟨SensorType.LASER, ![0, 0, 0], 0⟩).P_ 0 0 ≠ 1000 := by
  have hx : (initUKF.ProcessMeasurement ⟨SensorType.LASER, ![0, 0, 0], 0⟩).x_ 0 = 0 := rfl
  have hP : (initUKF.ProcessMeasurement ⟨SensorType.LASER, ![0, 0, 0], 0⟩).P_ 0 0 = 1 := rfl
  refine ⟨by norm_num, hx, ?_, hP, ?_⟩
  · rw [hx]; norm_num
  · rw [hP]; norm_num

/-- C3 (amended): the near-zero initialization guard applies only to a
first RADAR measurement — each converted position component whose magnitude
is below 1e-4 is replaced by 1 and the matching covariance diagonal entry
set to 1000 — while a first LASER measurement stores the raw position
unchanged and leaves the covariance untouched. -/
theorem C3_init_guard_radar_only (s : UKF) (rho phi rhod px py : ℝ) (t : ℤ)
    (h : s.is_initialized_ = false) :
    ((s.ProcessMeasurement ⟨SensorType.RADAR, ![rho, phi, rhod], t⟩).x_ 0 =
        (if |rho * Real.cos phi| < 0.0001 then 1 else rho * Real.cos phi)) ∧
    ((s.ProcessMeasurement ⟨SensorType.RADAR, ![rho, phi, rhod], t⟩).x_ 1 =
        (if |rho * Real.sin phi| < 0.0001 then 1 else rho * Real.sin phi)) ∧
    ((s.ProcessMeasurement ⟨SensorType.RADAR, ![rho, phi, rhod], t⟩).P_ 0 0 =
        (if |rho * Real.cos phi| < 0.0001 then 1000 else s.P_ 0 0)) ∧
    ((s.ProcessMeasurement ⟨SensorType.RADAR, ![rho, phi, rhod], t⟩).P_ 1 1 =
        (if |rho * Real.sin phi| < 0.0001 then 1000 else s.P_ 1 1)) ∧
    ((s.ProcessMeasurement ⟨SensorType.LASER, ![px, py, 0], t⟩).x_ 0 = px) ∧
    ((s.ProcessMeasurement ⟨SensorType.LASER, ![px, py, 0], t⟩).x_ 1 = py) ∧
    ((s.ProcessMeasurement ⟨SensorType.LASER, ![px, py, 0], t⟩).P_ = s.P_) := by
  refine ⟨?_, ?_, ?_, ?_, ?_, ?_, ?_⟩ <;>
    simp only [UKF.ProcessMeasurement, h] <;>
    norm_num [setEntry] <;>
    split_ifs <;>
    norm_num [setEntry]

/-- Witness for C3 (amended): a first RADAR measurement with range 0
converts to position (0, 0); both components are replaced by 1 and both
covariance diagonal entries are set to 1000. -/
theorem C3_init_guard_radar_only_witness :
    initUKF.is_initialized_ = false ∧
    (initUKF.ProcessMeasurement ⟨SensorType.RADAR, ![0, 0, 0], 3⟩).x_ 0 = 1 ∧
    (initUKF.ProcessMeasurement ⟨SensorType.RADAR, ![0, 0, 0], 3⟩).P_ 0 0 = 1000 := by
  have h := C3_init_guard_radar_only initUKF 0 0 0 7 8 3 rfl
  refine ⟨rfl, ?_, ?_⟩
  · rw [h.1]; norm_num
  · rw [h.2.2.1]; norm_num

/-- C9: after initialization no ordering check is applied to timestamps:
for a measurement whose timestamp is at most the stored one, the filter
still computes the (zero or negative) elapsed time
`dt = (timestamp - previous_timestamp_) / 1e6`, runs the full prediction
with that `dt` followed by the update matching the sensor tag, and
overwrites the stored timestamp; nothing is rejected and no error is
raised. -/
theorem C9_no_timestamp_ordering (s : UKF) (m : MeasurementPackage)
    (hinit : s.is_initialized_ = true)
    (hle : m.timestamp_ ≤ s.previous_timestamp_) :
    ((m.timestamp_ - s.previous_timestamp_ : ℤ) : ℝ) / 1000000 ≤ 0 ∧
    s.ProcessMeasurement m =
      (match m.sensor_type_ with
       | SensorType.RADAR =>
         UKF.UpdateRadar
           (UKF.Prediction { s with previous_timestamp_ := m.timestamp_ }
             (((m.timestamp_ - s.previous_timestamp_ : ℤ) : ℝ) / 1000000)) m
       | SensorType.LASER =>
         UKF.UpdateLidar
           (UKF.Prediction { s with previous_timestamp_ := m.timestamp_ }
             (((m.timestamp_ - s.previous_timestamp_ : ℤ) : ℝ) / 1000000)) m) ∧
    (s.ProcessMeasurement m).previous_timestamp_ = m.timestamp_ := by
  have hneg : ((m.timestamp_ - s.previous_timestamp_ : ℤ) : ℝ) / 1000000 ≤ 0 := by
    apply div_nonpos_of_nonpos_of_nonneg _ (by norm_num)
    exact_mod_cast sub_nonpos.mpr hle
  have hpm : s.ProcessMeasurement m =
      (match m.sensor_type_ with
       | SensorType.RADAR =>
         UKF.UpdateRadar
           (UKF.Prediction { s with previous_timestamp_ := m.timestamp_ }
             (((m.timestamp_ - s.previous_timestamp_ : ℤ) : ℝ) / 1000000)) m
       | SensorType.LASER =>
         UKF.UpdateLidar
           (UKF.Prediction { s with previous_timestamp_ := m.timestamp_ }
             (((m.timestamp_ - s.previous_timestamp_ : ℤ) : ℝ) / 1000000)) m) := by
    simp only [UKF.ProcessMeasurement, hinit]
    norm_num
  refine ⟨hneg, hpm, ?_⟩
  rw [hpm]
  cases m.sensor_type_ <;> rfl

/-- Witness for C9: a laser measurement with timestamp 3 arriving when the
stored timestamp is 5 is fully processed with dt = -2e-6 and the stored
timestamp moves backwards to 3. -/
theorem C9_no_timestamp_ordering_witness :
    ((3 - sC9.previous_timestamp_ : ℤ) : ℝ) / 1000000 ≤ 0 ∧
    sC9.ProcessMeasurement ⟨SensorType.LASER, ![1, 1, 0], 3⟩ =
      UKF.UpdateLidar
        (UKF.Prediction { sC9 with previous_timestamp_ := 3 }
          (((3 - sC9.previous_timestamp_ : ℤ) : ℝ) / 1000000))
        ⟨SensorType.LASER, ![1, 1, 0], 3⟩ ∧
    (sC9.ProcessMeasurement ⟨SensorType.LASER, ![1, 1, 0], 3⟩).previous_timestamp_ = 3 := by
  have h := C9_no_timestamp_ordering sC9 ⟨SensorType.LASER, ![1, 1, 0], 3⟩ rfl
    (by norm_num [sC9, initUKF])
  exact ⟨h.1, h.2.1, h.2.2⟩

/-- Expansion of a sum over the 15 sigma point indices. -/
lemma sum_fin15 (g : Fin 15 → ℝ) :
    (∑ c : Fin 15, g c) =
      g ⟨0, by omega⟩ + g ⟨1, by omega⟩ + g ⟨2, by omega⟩ + g ⟨3, by omega⟩ +
      g ⟨4, by omega⟩ + g ⟨5, by omega⟩ + g ⟨6, by omega⟩ + g ⟨7, by omega⟩ +
      g ⟨8, by omega⟩ + g ⟨9, by omega⟩ + g ⟨10, by omega⟩ + g ⟨11, by omega⟩ +
      g ⟨12, by omega⟩ + g ⟨13, by omega⟩ + g ⟨14, by omega⟩ := by
  rw [Finset.sum_fin_eq_sum_range]
  rw [Finset.sum_range_succ, Finset.sum_range_succ, Finset.sum_range_succ,
      Finset.sum_range_succ, Finset.sum_range_succ, Finset.sum_range_succ,
      Finset.sum_range_succ, Finset.sum_range_succ, Finset.sum_range_succ,
      Finset.sum_range_succ, Finset.sum_range_succ, Finset.sum_range_succ,
      Finset.sum_range_succ, Finset.sum_range_succ, Finset.sum_range_succ,
      Finset.sum_range_zero]
  norm_num

/-- With elapsed time 0 the CTRV propagation returns the first five
components of the sigma point unchanged: the curved and straight branches
both collapse to the position, and every noise term vanishes. -/
lemma processModel_zero (pt : Fin 7 → ℝ) :
    processModel 0 pt = ![pt 0, pt 1, pt 2, pt 3, pt 4] := by
  funext r
  fin_cases r <;> simp [processModel]

/-- With elapsed time 0 the predicted sigma points are the top five rows of
the augmented sigma points. -/
lemma Xsig_predOf_zero (s : UKF) (r : Fin 5) (c : Fin 15) :
    Xsig_predOf s 0 r c = XsigOf s ⟨(r : ℕ), by have := r.isLt; omega⟩ c := by
  rw [Xsig_predOf, processModel_zero]
  fin_cases r <;> rfl

/-- With elapsed time 0 and the constructor's weights the predicted mean is
the previous mean: the center column carries weight `-4/3`, the 14 spread
columns carry weight `1/6` each and cancel pairwise, and the weights sum
to 1. -/
lemma predMean_zero (s : UKF) (hw : s.weights_ = initWeights) (r : Fin 5) :
    predMean s 0 r = s.x_ r := by
  rw [predMean]
  simp only [Xsig_predOf_zero, hw]
  rw [sum_fin15]
  fin_cases r <;>
    norm_num [XsigOf, augMean, initWeights, lambda_, n_aug_, n_x_,
      Fin.ext_iff] <;>
    ring

/-- C4 (amended): running the prediction with elapsed time 0 leaves the
state mean unchanged for every state carrying the constructor's weight
vector; the covariance is not in general unchanged (see the
counterexample), because the yaw angle normalization can alter the
accumulated residuals even for a positive definite augmented covariance. -/
theorem C4_prediction_zero_mean (s : UKF) (hw : s.weights_ = initWeights) :
    (s.Prediction 0).x_ = s.x_ := by
  funext r
  exact predMean_zero s hw r

/-- Witness for C4 (amended) at the constructor state. -/
theorem C4_prediction_zero_mean_witness :
    initUKF.weights_ = initWeights ∧ (initUKF.Prediction 0).x_ = initUKF.x_ :=
  ⟨rfl, C4_prediction_zero_mean initUKF rfl⟩

/-- Off-diagonal entries of the Cholesky factor of a diagonal matrix are
zero. -/
lemma cholEntry_offdiag_diag (d : Fin 7 → ℝ) :
    ∀ j i : ℕ, i ≠ j → cholEntry (Matrix.diagonal d) i j = 0 := by
  intro j
  induction j using Nat.strong_induction_on with
  | _ j ih =>
    intro i hij
    rw [cholEntry]
    rcases Nat.lt_or_ge i j with h | h
    · rw [dif_pos h]
    · have hgt : j < i := by omega
      rw [dif_neg (by omega), dif_neg (by omega)]
      have hsum : (∑ k : Fin j, cholEntry (Matrix.diagonal d) i k *
          cholEntry (Matrix.diagonal d) j k) = 0 := by
        apply Finset.sum_eq_zero
        intro k _
        have hik : i ≠ (k : ℕ) := by have := k.isLt; omega
        rw [ih k k.isLt i hik, zero_mul]
      have hent : entry7 (Matrix.diagonal d) i j = 0 := by
        unfold entry7
        split
        · apply Matrix.diagonal_apply_ne
          simp only [ne_eq, Fin.mk.injEq]
          exact hij
        · rfl
      rw [hsum, hent]
      norm_num

/-- Diagonal entries of the Cholesky factor of a diagonal matrix are the
square roots of the diagonal. -/
lemma cholEntry_diag_diag (d : Fin 7 → ℝ) (j : ℕ) (hj : j < 7) :
    cholEntry (Matrix.diagonal d) j j = Real.sqrt (d ⟨j, hj⟩) := by
  rw [cholEntry]
  rw [dif_neg (lt_irrefl j), dif_pos rfl]
  have hsum : (∑ k : Fin j, (cholEntry (Matrix.diagonal d) j k) ^ 2) = 0 := by
    apply Finset.sum_eq_zero
    intro k _
    have hjk : j ≠ (k : ℕ) := by have := k.isLt; omega
    rw [cholEntry_offdiag_diag d k j hjk]
    ring
  have hent : entry7 (Matrix.diagonal d) j j = d ⟨j, hj⟩ := by
    unfold entry7
    rw [dif_pos ⟨hj, hj⟩]
    exact Matrix.diagonal_apply_eq d _
  rw [hsum, hent, sub_zero]

/-- Diagonal of the augmented covariance of the C4 test state. -/
noncomputable def dC4 : Fin 7 → ℝ := ![1, 1, 1, 100, 1, 0.63 * 0.63, 1.2 * 1.2]

/-- The augmented covariance of the C4 test state is diagonal. -/
lemma augCov_sC4 : augCov sC4.P_ sC4.Q_ = Matrix.diagonal dC4 := by
  funext i j
  fin_cases i <;> fin_cases j <;> rfl

/-- Row 3 of the Cholesky factor for the C4 test state: the single nonzero
entry is the diagonal `sqrt 100 = 10`. -/
lemma lltL_sC4_row3 (j : Fin 7) :
    lltL sC4.P_ sC4.Q_ 3 j = if (j : ℕ) = 3 then 10 else 0 := by
  show cholEntry (augCov sC4.P_ sC4.Q_) ((3 : Fin 7) : ℕ) (j : ℕ) = _
  rw [augCov_sC4]
  by_cases h : (j : ℕ) = 3
  · rw [if_pos h, h]
    rw [show ((3 : Fin 7) : ℕ) = 3 from rfl]
    rw [cholEntry_diag_diag dC4 3 (by omega)]
    show Real.sqrt 100 = 10
    rw [show (100 : ℝ) = 10 ^ 2 by norm_num]
    exact Real.sqrt_sq (by norm_num)
  · rw [if_neg h]
    exact cholEntry_offdiag_diag dC4 (j : ℕ) ((3 : Fin 7) : ℕ) (by
      rw [show ((3 : Fin 7) : ℕ) = 3 from rfl]
      omega)

lemma sqrt3_bounds : 1.732 < Real.sqrt 3 ∧ Real.sqrt 3 < 1.7321 := by
  have h := Real.sq_sqrt (show (0:ℝ) ≤ 3 by norm_num)
  have hnn := Real.sqrt_nonneg 3
  constructor
  · nlinarith [h, hnn]
  · nlinarith [h, hnn]

/-- The normalization loop wraps `10 √3 ≈ 17.32` down by three full turns
to `10 √3 - 6 π ≈ -1.53`. -/
lemma normAngle_10sqrt3 :
    normAngle (Real.sqrt 3 * 10) = Real.sqrt 3 * 10 - 6 * Real.pi := by
  have hs := sqrt3_bounds
  have hp1 := Real.pi_gt_d6
  have hp2 := Real.pi_lt_d2
  have hceil : ⌈(Real.sqrt 3 * 10 - Real.pi) / (2 * Real.pi)⌉ = 3 := by
    rw [Int.ceil_eq_iff]
    constructor
    · rw [lt_div_iff₀ (by positivity)]
      push_cast
      nlinarith
    · rw [div_le_iff₀ (by positivity)]
      push_cast
      nlinarith
  have hsub : normSubLoop (Real.sqrt 3 * 10) = Real.sqrt 3 * 10 - 6 * Real.pi := by
    rw [normSubLoop, hceil]
    rw [max_eq_right (by omega)]
    push_cast
    ring
  rw [normAngle, hsub]
  apply normAddLoop_of_ge
  nlinarith

/-- The normalization loop wraps `-10 √3` up by three full turns. -/
lemma normAngle_neg10sqrt3 :
    normAngle (-(Real.sqrt 3 * 10)) = -(Real.sqrt 3 * 10) + 6 * Real.pi := by
  have hs := sqrt3_bounds
  have hp1 := Real.pi_gt_d6
  have hp2 := Real.pi_lt_d2
  have hceil : ⌈(-Real.pi - -(Real.sqrt 3 * 10)) / (2 * Real.pi)⌉ = 3 := by
    rw [Int.ceil_eq_iff]
    constructor
    · rw [lt_div_iff₀ (by positivity)]
      push_cast
      nlinarith
    · rw [div_le_iff₀ (by positivity)]
      push_cast
      nlinarith
  have hsub : normSubLoop (-(Real.sqrt 3 * 10)) = -(Real.sqrt 3 * 10) :=
    normSubLoop_of_le (by nlinarith)
  rw [normAngle, hsub, normAddLoop, hceil]
  rw [max_eq_right (by omega)]
  push_cast
  ring

/-- Value of row 3 of the augmented sigma points of the C4 test state: zero
mean plus or minus the scaled Cholesky column, nonzero only in the two
columns that spread the yaw component. -/
lemma Xsig_sC4_row3 (c : Fin 15) :
    XsigOf sC4 3 c =
      if (c : ℕ) = 4 then Real.sqrt 3 * 10
      else if (c : ℕ) = 11 then -(Real.sqrt 3 * 10) else 0 := by
  have hq : Real.sqrt (lambda_ + (n_aug_ : ℝ)) = Real.sqrt 3 := by
    norm_num [lambda_, n_aug_, n_x_]
  have hL := lltL_sC4_row3
  have hx : augMean sC4.x_ 3 = 0 := rfl
  fin_cases c <;>
    simp only [XsigOf] <;>
    norm_num [hx, hq, hL]

/-- The yaw entry of the predicted covariance of the C4 test state at
elapsed time 0: the two wrapped yaw residuals contribute
`(10 √3 - 6 π)² / 3` — not the original variance 100. -/
lemma predP33_sC4 :
    (sC4.Prediction 0).P_ 3 3 = (Real.sqrt 3 * 10 - 6 * Real.pi) ^ 2 / 3 := by
  have hx3 : predMean sC4 0 3 = 0 := by
    rw [predMean_zero sC4 rfl 3]; rfl
  have hXp : ∀ c : Fin 15, Xsig_predOf sC4 0 3 c = XsigOf sC4 3 c := by
    intro c
    rw [Xsig_predOf_zero]
    rfl
  have hd : ∀ c : Fin 15, predXdiff sC4 0 c 3 =
      if (c : ℕ) = 4 then Real.sqrt 3 * 10 - 6 * Real.pi
      else if (c : ℕ) = 11 then -(Real.sqrt 3 * 10 - 6 * Real.pi) else 0 := by
    intro c
    have h3 : predXdiff sC4 0 c 3 =
        normAngle (Xsig_predOf sC4 0 3 c - predMean sC4 0 3) := by
      simp [predXdiff]
    rw [h3, hXp, Xsig_sC4_row3, hx3, sub_zero]
    by_cases h4 : (c : ℕ) = 4
    · rw [if_pos h4, if_pos h4]
      exact normAngle_10sqrt3
    · by_cases h11 : (c : ℕ) = 11
      · rw [if_neg h4, if_pos h11, if_neg h4, if_pos h11]
        rw [normAngle_neg10sqrt3]
        ring
      · rw [if_neg h4, if_neg h11, if_neg h4, if_neg h11]
        exact normAngle_zero
  have hwc : ∀ c : Fin 15, sC4.weights_ c = initWeights c := fun c => rfl
  show predCov sC4 0 3 3 = _
  rw [predCov]
  rw [sum_fin15]
  simp only [hd, hwc]
  norm_num [initWeights, Fin.ext_iff, lambda_, n_aug_, n_x_]
  ring

/-- The augmented covariance of the C4 test state is positive definite. -/
lemma posDef_sC4 : (augCov sC4.P_ sC4.Q_).PosDef := by
  rw [augCov_sC4, Matrix.posDef_diagonal_iff]
  intro i
  fin_cases i
  · show (0:ℝ) < 1; norm_num
  · show (0:ℝ) < 1; norm_num
  · show (0:ℝ) < 1; norm_num
  · show (0:ℝ) < 100; norm_num
  · show (0:ℝ) < 1; norm_num
  · show (0:ℝ) < 0.63 * 0.63; norm_num
  · show (0:ℝ) < 1.2 * 1.2; norm_num

/-- C4 counterexample: a state with the constructor's weights whose
augmented covariance is positive definite (diagonal with yaw variance 100)
on which `Prediction(0)` changes the covariance: the yaw diagonal entry
becomes `(10 √3 - 6 π)² / 3 < 1`, not 100, because the yaw residuals
`±10 √3` of the spread columns are angle-normalized before accumulation. -/
theorem C4_counterexample :
    sC4.weights_ = initWeights ∧
    (augCov sC4.P_ sC4.Q_).PosDef ∧
    (sC4.Prediction 0).P_ 3 3 ≠ sC4.P_ 3 3 := by
  refine ⟨rfl, posDef_sC4, ?_⟩
  rw [predP33_sC4]
  have hP33 : sC4.P_ 3 3 = 100 := rfl
  rw [hP33]
  have hs := sqrt3_bounds
  have hp1 := Real.pi_gt_d6
  have hp2 := Real.pi_lt_d2
  have hA_lb : (-1.6 : ℝ) < Real.sqrt 3 * 10 - 6 * Real.pi := by linarith [hs.1]
  have hA_ub : Real.sqrt 3 * 10 - 6 * Real.pi < 0 := by linarith [hs.2]
  intro hcontra
  have hA2 : (Real.sqrt 3 * 10 - 6 * Real.pi) ^ 2 = 300 := by linarith
  nlinarith [hA2, hA_lb, hA_ub]
